import Mathlib

/-!
Verification development for the Contact-App resilient CSV ingestion pipeline.

The JavaScript source (csvService.js, cacheService.js, exportService.js,
config.js) is shallowly embedded: JS strings are Lean `String`s (manipulated
through their character lists), JS objects holding CSV rows are association
lists with distinct keys, fallible asynchronous operations are `Except`-valued
functions, and every external effect (HTTP responses, the durable cache files)
is an explicit environment parameter.
-/

/-! ### JavaScript string primitives -/

/-- JS whitespace test (the `\s` regex class, restricted to the ASCII part). -/
def isJsWS (c : Char) : Bool :=
  c = ' ' || c = '\t' || c = '\n' || c = '\r' || c = '\x0b' || c = '\x0c'

/-- `String.prototype.trim` on a character list. -/
def jsTrimL (l : List Char) : List Char :=
  ((l.dropWhile isJsWS).reverse.dropWhile isJsWS).reverse

/-- `String.prototype.trim`. -/
def jsTrim (s : String) : String := (jsTrimL s.toList).asString

/-- `.replace(/\s+/g, '_')`: every maximal whitespace run becomes one `_`.
The flag records whether the previous character was whitespace. -/
def collapseWSAux : Bool → List Char → List Char
  | _, [] => []
  | prevWS, c :: r =>
    if isJsWS c then
      if prevWS then collapseWSAux true r else '_' :: collapseWSAux true r
    else c :: collapseWSAux false r

/-- Header transform of the structured parser:
`header.trim().replace(/\s+/g, '_')`. -/
def transformHeader (s : String) : String :=
  (collapseWSAux false (jsTrimL s.toList)).asString

/-- Header transform of the manual parser:
`h.replace(/"/g, '').trim().replace(/\s+/g, '_')`. -/
def manualHeaderName (s : String) : String :=
  (collapseWSAux false (jsTrimL (s.toList.filter (fun c => c ≠ '\"')))).asString

/-- Prepend a character to the first token of a token list. -/
def consTok (c : Char) : List (List Char) → List (List Char)
  | [] => [[c]]
  | f :: fs => (c :: f) :: fs

/-- `String.prototype.split(sep)` (single-character separator). -/
def splitOnChar (sep : Char) : List Char → List (List Char)
  | [] => [[]]
  | c :: r => if c = sep then [] :: splitOnChar sep r else consTok c (splitOnChar sep r)

/-- `split` at the string level. -/
def strSplit (s : String) (sep : Char) : List String :=
  (splitOnChar sep s.toList).map List.asString

/-! ### Raw records (JS objects produced by the parsers) -/

/-- A parsed CSV row: header name to string value, keys distinct by
construction (JS object). -/
abbrev RawRecord := List (String × String)

/-- Property read `obj[k]`. -/
def rlookup : RawRecord → String → Option String
  | [], _ => none
  | (k', v) :: r, k => if k' = k then some v else rlookup r k

/-- Property write `obj[k] = v` (overwrite in place, else append). -/
def rset : RawRecord → String → String → RawRecord
  | [], k, v => [(k, v)]
  | (k', v') :: r, k, v => if k' = k then (k, v) :: r else (k', v') :: rset r k v

/-- `Object.keys(obj)`. -/
def rkeys (r : RawRecord) : List String := r.map Prod.fst

/-- Read a field as a string, with JS `undefined` and `''` both reading as
the falsy `''` in `a || b` chains. -/
def getStr (r : RawRecord) (k : String) : String := (rlookup r k).getD ""

/-- A JS `contact.k1 || contact.k2 || ... || dflt` chain: first alias with a
truthy (non-empty) value, else the default. -/
def firstTruthy (r : RawRecord) : List String → String → String
  | [], dflt => dflt
  | k :: ks, dflt => if getStr r k ≠ "" then getStr r k else firstTruthy r ks dflt

/-! ### Field normalizer -/

/-- `formatPhone`: keep only digits; exactly 10 digits are displayed as
`(XXX) XXX-XXXX` (the regex replace on a 10-digit string rewrites the whole
string), anything else is returned unchanged.  `if (!phone) return ''`
returns `''` for the only falsy string, which is `''` itself. -/
def formatPhone (phone : String) : String :=
  if phone = "" then ""
  else
    let cleaned := phone.toList.filter Char.isDigit
    if cleaned.length = 10 then
      ("(".toList ++ cleaned.take 3 ++ ") ".toList ++ (cleaned.drop 3).take 3
        ++ "-".toList ++ cleaned.drop 6).asString
    else phone

/-- The canonical contact shape produced by `formatContact`. -/
structure Contact where
  id : String
  name : String
  email : String
  phone : String
  company : String
  address : String
  city : String
  state : String
  country : String
  zip : String
  balance : String
  _original : RawRecord
deriving Repr, DecidableEq

/-- `\s` removal / replacement used for the derived id:
`` `${name}_${email}`.replace(/\s/g, '_') ``. -/
def wsToUnderscore (s : String) : String :=
  (s.toList.map (fun c => if isJsWS c then '_' else c)).asString

/-- `formatContact`: resolve each canonical field through its ordered alias
chain, format the phone, derive an id when none exists, and keep the raw
record in `_original`. -/
def formatContact (contact : RawRecord) : Contact :=
  let name := firstTruthy contact ["Name", "name", "Company_name", "Company name", "company"]
      "Unknown Contact"
  let email := firstTruthy contact ["Email", "email", "Email_Address"] ""
  { id := if getStr contact "id" ≠ "" then getStr contact "id"
          else wsToUnderscore (name ++ "_" ++ email)
    name := name
    email := email
    phone := formatPhone (firstTruthy contact ["Phone", "phone", "mobile", "telephone"] "")
    company := firstTruthy contact ["Company_name", "Company name", "company", "organisation", "Company"] ""
    address := firstTruthy contact ["Street_Address", "Street Address", "address", "Address"] ""
    city := firstTruthy contact ["City", "city"] ""
    state := firstTruthy contact ["State", "state", "province"] ""
    country := firstTruthy contact ["Country", "country"] ""
    zip := firstTruthy contact ["Zip", "zip", "postal_code"] ""
    balance := firstTruthy contact ["Open_balance", "Open balance", "balance"] ""
    _original := contact }

/-- The validity filter of `getContacts`:
`contact.name !== 'Unknown Contact' || contact.email || contact.phone || contact.company`. -/
def isMeaningful (c : Contact) : Bool :=
  decide (c.name ≠ "Unknown Contact") || decide (c.email ≠ "") ||
    decide (c.phone ≠ "") || decide (c.company ≠ "")

/-! ### Structured parser (PapaParse-backed strategies) -/

/-- Prepend a character to the first field of the first row. -/
def consField (c : Char) : List (List (List Char)) → List (List (List Char))
  | [] => [[[c]]]
  | row :: rs => consTok c row :: rs

/-- Open a new (empty) field at the front of the first row. -/
def consNewField : List (List (List Char)) → List (List (List Char))
  | [] => [[[], []]]
  | row :: rs => (([] : List Char) :: row) :: rs

/-- Modelled from the spec: the tokenizer of the external CSV-grammar library
(PapaParse), which is not part of this repository.  Quote character `"`,
escape character `"`, comma delimiter; a comma or newline inside quotes is
field content.  Returns the rows (lists of fields) together with a flag that
is `true` when the text ended inside an unterminated quoted field. -/
def papaScanCh : List Char → Bool → List (List (List Char)) × Bool
  | [], inQ => ([[[]]], inQ)
  | '\"' :: '\"' :: rest, true =>
    let p := papaScanCh rest true
    (consField '\"' p.1, p.2)
  | '\"' :: rest, true => papaScanCh rest false
  | c :: rest, true =>
    let p := papaScanCh rest true
    (consField c p.1, p.2)
  | '\"' :: rest, false => papaScanCh rest true
  | ',' :: rest, false =>
    let p := papaScanCh rest false
    (consNewField p.1, p.2)
  | '\n' :: rest, false =>
    let p := papaScanCh rest false
    ([[]] :: p.1, p.2)
  | c :: rest, false =>
    let p := papaScanCh rest false
    (consField c p.1, p.2)

/-- A row dropped by `skipEmptyLines`: the strict profile uses `'greedy'`
(whitespace-only rows are also dropped), the relaxed profile uses `true`
(only truly empty rows are dropped). -/
def rowIsEmpty (strict : Bool) (row : List (List Char)) : Bool :=
  if strict then row.all (fun f => (jsTrimL f).isEmpty)
  else decide (row = [[]])

/-- Modelled from the spec: the record constructor of the external CSV
library under `header: true` — row values are zipped positionally with the
transformed header names; values beyond the header count are collected under
the `__parsed_extra` key; headers beyond the value count stay absent. -/
def papaZipRecord (headers : List String) (row : List (List Char)) : RawRecord :=
  let values := row.map List.asString
  let base := (List.zip headers values).foldl (fun r kv => rset r kv.1 kv.2) []
  if headers.length < values.length then
    rset base "__parsed_extra" (String.intercalate "," (values.drop headers.length))
  else base

/-- Modelled from the spec: `Papa.parse(csvText, config)` for the two
structured profiles of `parseCSVWithFallbacks` (and, with `strict := false`,
for `loadLocalCSV`).  The strict profile treats a parse error (an
unterminated quoted field) as fatal; the relaxed profile swallows it and
keeps the well-formed rows. -/
def papaParse (strict : Bool) (csvText : String) : Except String (List RawRecord) :=
  let scanned := papaScanCh csvText.toList false
  if strict ∧ scanned.2 = true then Except.error "Parse error: unterminated quoted field"
  else
    let rows1 := if scanned.2 then scanned.1.dropLast else scanned.1
    match rows1.filter (fun row => !rowIsEmpty strict row) with
    | [] => Except.ok []
    | hdr :: dataRows =>
      let headers := hdr.map (fun f => transformHeader f.asString)
      Except.ok (dataRows.map (papaZipRecord headers))

/-- The validity filter applied to each structured-strategy record:
`keys.length > 1` and one of `Name`, `Email`, `Phone`, `Company_name`
non-empty after trimming. -/
def papaRecordValid (r : RawRecord) : Bool :=
  let hasF : String → Bool := fun k =>
    match rlookup r k with
    | some s => decide (s ≠ "") && decide (jsTrim s ≠ "")
    | none => false
  decide (1 < (rkeys r).eraseDups.length) &&
    (hasF "Name" || hasF "Email" || hasF "Phone" || hasF "Company_name")

/-- One structured strategy of `parseCSVWithFallbacks`: run the library
profile, filter for valid records, and reject the whole strategy when no
valid record remains. -/
def papaStrategy (strict : Bool) (csvText : String) : Except String (List RawRecord) :=
  match papaParse strict csvText with
  | Except.error e => Except.error e
  | Except.ok records =>
    let valid := records.filter papaRecordValid
    if valid.isEmpty then Except.error "No valid contacts found after parsing"
    else Except.ok valid

/-! ### Manual line-level parser -/

/-- The hand-written per-line tokenizer of `manualCSVParse`: split on commas
outside quotes; a `"` toggles the in-quotes flag and is not kept. -/
def manualTokenize : List Char → Bool → List (List Char)
  | [], _ => [[]]
  | c :: rest, inQ =>
    if c = '\"' then manualTokenize rest (!inQ)
    else if c = ',' ∧ inQ = false then [] :: manualTokenize rest false
    else consTok c (manualTokenize rest inQ)

/-- `current.trim().replace(/^"|"$/g, '')` applied when a value is pushed
(the tokenizer never leaves a quote in the value, so the edge-quote strip is
kept only for faithfulness). -/
def manualValue (cs : List Char) : String :=
  let t := jsTrimL cs
  let t1 := if t.head? = some '\"' then t.tail else t
  (if t1.getLast? = some '\"' then t1.dropLast else t1).asString

/-- The zip loop of `manualCSVParse`:
`for k < min(headers.length, values.length): contact[headers[k]] = values[k] || ''`
(`values[k]` is always defined there, so `|| ''` keeps the value). -/
def manualZipRecord (headers values : List String) : RawRecord :=
  (List.zip headers values).foldl (fun r kv => rset r kv.1 kv.2) []

/-- Build the record for one (already trimmed, non-blank) data line. -/
def manualRowRecord (headers : List String) (line : String) : RawRecord :=
  manualZipRecord headers ((manualTokenize line.toList false).map manualValue)

/-- The acceptance test of `manualCSVParse`:
`contact.Name || contact.Email || contact.Phone || contact['Company_name']`. -/
def manualAccept (r : RawRecord) : Bool :=
  decide (getStr r "Name" ≠ "") || decide (getStr r "Email" ≠ "") ||
    decide (getStr r "Phone" ≠ "") || decide (getStr r "Company_name" ≠ "")

/-- The data-line loop of `manualCSVParse`: skip blank lines, tokenize, zip
against the headers, keep only records passing the acceptance test. -/
def manualLines (headers : List String) : List String → List RawRecord
  | [] => []
  | line :: rest =>
    let l := jsTrim line
    if l = "" then manualLines headers rest
    else
      let contact := manualRowRecord headers l
      if manualAccept contact then contact :: manualLines headers rest
      else manualLines headers rest

/-- `manualCSVParse`: split on newlines, fail when fewer than two lines
exist, take the first line as the (quote-stripped, trimmed, collapsed)
header row, and run the data-line loop. -/
def manualCSVParse (csvText : String) : Except String (List RawRecord) :=
  match strSplit csvText '\n' with
  | [] => Except.error "CSV has insufficient lines"
  | [_] => Except.error "CSV has insufficient lines"
  | l0 :: dataLines =>
    let headers := (strSplit (jsTrim l0) ',').map manualHeaderName
    Except.ok (manualLines headers dataLines)

/-- `parseCSVWithFallbacks`: strict profile, then relaxed profile, then the
manual parser; the generic error is raised only when every strategy fails. -/
def parseCSVWithFallbacks (csvText : String) : Except String (List RawRecord) :=
  match papaStrategy true csvText with
  | Except.ok rs => Except.ok rs
  | Except.error _ =>
    match papaStrategy false csvText with
    | Except.ok rs => Except.ok rs
    | Except.error _ =>
      match manualCSVParse csvText with
      | Except.ok rs => Except.ok rs
      | Except.error _ => Except.error "All parsing strategies failed"

/-! ### Bundled sample data -/

/-- The bundled sample CSV of `loadLocalCSV`. -/
def localCSVData : String :=
  "Name,Company_name,Email,Phone,City,Country\nJohn Doe,Tech Corp,john.doe@email.com,+1-555-0123,New York,USA\nJane Smith,Design Studio,jane.smith@email.com,+1-555-0124,Los Angeles,USA\nMike Johnson,Marketing Inc,mike.johnson@email.com,+1-555-0125,Chicago,USA\nSarah Wilson,Sales Co,sarah.wilson@email.com,+1-555-0126,Miami,USA\nDavid Brown,Consulting Ltd,david.brown@email.com,+1-555-0127,Seattle,USA"

/-- `loadLocalCSV`: parse the bundled sample CSV with the library profile
(`header: true`, `skipEmptyLines: true`, the same header transform) and
resolve its records unfiltered; it only ever resolves (the relaxed library
profile cannot fail, so the error branch is unreachable). -/
def loadLocalCSV : List RawRecord :=
  match papaParse false localCSVData with
  | Except.ok rs => rs
  | Except.error _ => []

/-! ### Network fetcher -/

/-- The outcome of one HTTP request in the environment: either a response
with a status code and body, or a network-level failure (connection error,
timeout / abort). -/
inductive HttpOutcome where
  | success (status : Nat) (body : String)
  | netError (msg : String)
deriving Repr, DecidableEq

/-- `config.maxRetries` is unused by `fetchCSVFromURL`, which hardcodes
`maxAttempts = 3`. -/
def maxAttempts : Nat := 3

/-- One attempt of `fetchCSVFromURL`: reject a network failure, a non-2xx
status (`!response.ok`), or an implausibly small body (< 100 chars), and
otherwise hand the body to `parseCSVWithFallbacks` — whose failure is caught
by the same `catch` and therefore also counts as a failed attempt. -/
def fetchAttempt (o : HttpOutcome) : Except String (List RawRecord) :=
  match o with
  | HttpOutcome.netError m => Except.error m
  | HttpOutcome.success status body =>
    if ¬(200 ≤ status ∧ status < 300) then Except.error ("HTTP " ++ toString status)
    else if body.length < 100 then Except.error "CSV file appears to be empty or too small"
    else parseCSVWithFallbacks body

/-- The retry recursion of `fetchCSVFromURL`, structurally on the remaining
fuel (`maxAttempts - attempt` at the entry point, so the zero-fuel branch is
unreachable from `fetchCSVFromURL`).  Returns the result, the list of
backoff delays slept (`retryDelay = attempt * 1000`), and the number of
attempts performed. -/
def fetchGo (responses : Nat → HttpOutcome) : Nat → Nat → Except String (List RawRecord) × List Nat × Nat
  | attempt, fuel =>
    match fetchAttempt (responses attempt) with
    | Except.ok rs => (Except.ok rs, [], 1)
    | Except.error msg =>
      if attempt < maxAttempts then
        match fuel with
        | 0 => (Except.error msg, [], 1)
        | fuel' + 1 =>
          let rest := fetchGo responses (attempt + 1) fuel'
          (rest.1, attempt * 1000 :: rest.2.1, rest.2.2 + 1)
      else
        (Except.error ("Failed to fetch CSV after " ++ toString maxAttempts
          ++ " attempts: " ++ msg), [], 1)

/-- `fetchCSVFromURL(url, attempt = 1)` over an environment giving the HTTP
outcome of each attempt. -/
def fetchCSVFromURL (responses : Nat → HttpOutcome) (attempt : Nat) :
    Except String (List RawRecord) × List Nat × Nat :=
  fetchGo responses attempt (maxAttempts - attempt)

/-! ### Local cache store (`downloadAndCacheCSV`) -/

/-- The durable-cache environment: the sidecar timestamp when the info file
exists and parses, the cached CSV payload when the cache file exists, the
status and body of a fresh download, and the current time. -/
structure CacheEnv where
  infoTimestamp : Option Nat
  payload : Option String
  downloadStatus : Nat
  downloadBody : String
  now : Nat
deriving Repr, DecidableEq

/-- `downloadAndCacheCSV`: serve the cached payload while the sidecar is
younger than 10 minutes; otherwise download (status 200 writes and returns
the fresh body); any error inside the `try` falls back to the possibly
expired cached payload and only propagates when none exists. -/
def downloadAndCacheCSV (e : CacheEnv) : Except String String :=
  let tryResult : Except String String :=
    match e.infoTimestamp with
    | some ts =>
      if e.now - ts < 600000 then
        match e.payload with
        | some data => Except.ok data
        | none => Except.error "cache file unreadable"
      else
        if e.downloadStatus = 200 then Except.ok e.downloadBody
        else Except.error ("Download failed with status " ++ toString e.downloadStatus)
    | none =>
      if e.downloadStatus = 200 then Except.ok e.downloadBody
      else Except.error ("Download failed with status " ++ toString e.downloadStatus)
  match tryResult with
  | Except.ok d => Except.ok d
  | Except.error err =>
    match e.payload with
    | some data => Except.ok data
    | none => Except.error err

/-! ### Ingestion orchestrator (`getContacts`) -/

/-- `config.useLocalCSV` from config.js. -/
def configUseLocalCSV : Bool := false

/-- `CACHE_DURATION = 5 * 60 * 1000`. -/
def cacheDuration : Nat := 5 * 60 * 1000

/-- The module-level memory snapshot: `cachedContacts` (null before the
first success) and `lastFetchTime`. -/
structure OrchState where
  cachedContacts : Option (List Contact)
  lastFetchTime : Nat
deriving Repr, DecidableEq

/-- The environment of one `getContacts` run: the primary fetch attempts,
the durable-cache state, the alternative-headers fetch response, and the
CORS-proxy fetch (its `data.contents` on success). -/
structure OrchEnv where
  primaryResponses : Nat → HttpOutcome
  cacheEnv : CacheEnv
  altResponse : HttpOutcome
  proxyResponse : Except String String

/-- Approach 1 of the fallback chain: `downloadAndCacheCSV` then
`parseCSVWithFallbacks`, both failures caught by the same `catch`. -/
def cacheApproach (env : OrchEnv) : Except String (List RawRecord) :=
  match downloadAndCacheCSV env.cacheEnv with
  | Except.ok csvText => parseCSVWithFallbacks csvText
  | Except.error e => Except.error e

/-- Approach 2: a single direct fetch with alternative headers; a non-ok
response throws inside the same `try` as the parse. -/
def altApproach (env : OrchEnv) : Except String (List RawRecord) :=
  match env.altResponse with
  | HttpOutcome.success status body =>
    if 200 ≤ status ∧ status < 300 then parseCSVWithFallbacks body
    else Except.error ("Alternative fetch failed: " ++ toString status)
  | HttpOutcome.netError m => Except.error m

/-- Approach 3: the CORS-proxy fetch; on success its `data.contents` is
parsed. -/
def proxyApproach (env : OrchEnv) : Except String (List RawRecord) :=
  match env.proxyResponse with
  | Except.ok contents => parseCSVWithFallbacks contents
  | Except.error e => Except.error e

/-- The nested fallback ladder inside the `try` of `getContacts`: primary
`fetchCSVFromURL`, then `downloadAndCacheCSV` + parse, then the
alternative-headers fetch + parse, then the CORS proxy + parse, and finally
the bundled sample data, which always succeeds. -/
def ladderE (env : OrchEnv) : Except String (List RawRecord) :=
  match (fetchCSVFromURL env.primaryResponses 1).1 with
  | Except.ok cs => Except.ok cs
  | Except.error _ =>
    match cacheApproach env with
    | Except.ok cs => Except.ok cs
    | Except.error _ =>
      match altApproach env with
      | Except.ok cs => Except.ok cs
      | Except.error _ =>
        match proxyApproach env with
        | Except.ok cs => Except.ok cs
        | Except.error _ => Except.ok loadLocalCSV

/-- The `try` block of `getContacts` (with `config.useLocalCSV = false` the
local branch is dead): acquire raw records through the ladder, normalize
each with `formatContact`, discard non-meaningful contacts, and write the
memory snapshot. -/
def getContactsTry (env : OrchEnv) (now : Nat) : Except String (List Contact × OrchState) :=
  match (if configUseLocalCSV then Except.ok loadLocalCSV else ladderE env) with
  | Except.error e => Except.error e
  | Except.ok contacts =>
    let formatted := (contacts.map formatContact).filter isMeaningful
    Except.ok (formatted, { cachedContacts := some formatted, lastFetchTime := now })

/-- The `catch` of `getContacts`: return the previous snapshot even if
expired, else the sample data mapped through `formatContact` (no validity
filter on this last path); the snapshot is not updated. -/
def onUnexpected (st : OrchState) : List Contact × OrchState :=
  match st.cachedContacts with
  | some cs => (cs, st)
  | none => (loadLocalCSV.map formatContact, st)

/-- `getContacts(forceRefresh)`: serve the memory snapshot when present and
younger than `CACHE_DURATION`, else run the `try` block, recovering through
`onUnexpected` if it were ever to throw. -/
def getContacts (forceRefresh : Bool) (env : OrchEnv) (st : OrchState) (now : Nat) :
    List Contact × OrchState :=
  if forceRefresh = false ∧ st.cachedContacts.isSome = true ∧ now - st.lastFetchTime < cacheDuration then
    (st.cachedContacts.getD [], st)
  else
    match getContactsTry env now with
    | Except.ok r => r
    | Except.error _ => onUnexpected st

/-! ### Export (`exportContacts`) -/

/-- Escape `"` as `""` inside a quoted CSV field. -/
def escQuotes : List Char → List Char
  | [] => []
  | c :: r => if c = '\"' then '\"' :: '\"' :: escQuotes r else c :: escQuotes r

/-- Modelled from the spec: the field serializer of the external CSV library
(`Papa.unparse`), which is not part of this repository — a field containing
the delimiter, the quote character or a line break is quoted, with inner
quotes doubled. -/
def csvFieldChars (s : String) : List Char :=
  if s.toList.any (fun c => c = ',' || c = '\"' || c = '\n' || c = '\r') then
    '\"' :: (escQuotes s.toList ++ ['\"'])
  else s.toList

/-- Join fields with commas. -/
def joinComma : List (List Char) → List Char
  | [] => []
  | [f] => f
  | f :: fs => f ++ ',' :: joinComma fs

/-- Join lines with `\r\n` (the library's default line ending). -/
def joinCRLF : List (List Char) → List Char
  | [] => []
  | [l] => l
  | l :: ls => l ++ '\r' :: '\n' :: joinCRLF ls

/-- The fixed export column list of `exportContacts`. -/
def exportColumns : List String :=
  ["name", "company", "email", "phone", "address", "city", "state", "country", "zip", "balance"]

/-- The export header line (the columns joined by commas). -/
def exportHeaderChars : List Char :=
  "name,company,email,phone,address,city,state,country,zip,balance".toList

/-- One exported row: the ten canonical fields of a contact, in column
order. -/
def exportRowChars (c : Contact) : List Char :=
  joinComma ([c.name, c.company, c.email, c.phone, c.address,
              c.city, c.state, c.country, c.zip, c.balance].map csvFieldChars)

/-- Modelled from the spec: `Papa.unparse(contacts, { header: true, columns: [...] })`
inside `exportContacts` — the header line followed by one row per contact. -/
def exportCSV (l : List Contact) : String :=
  (joinCRLF (exportHeaderChars :: l.map exportRowChars)).asString

/-! ### Spec-side definitions and concrete fixtures -/

/-- All header aliases consulted by `formatContact` for the four identifying
canonical fields (name-like, email-like, phone-like, company-like). -/
def identifyingAliases : List String :=
  ["Name", "name", "Email", "email", "Email_Address", "Phone", "phone", "mobile",
   "telephone", "Company_name", "Company name", "company", "organisation", "Company"]

/-- A raw record with zero identifying fields populated: every identifying
alias is absent or empty. -/
def noIdentifyingFields (r : RawRecord) : Bool :=
  identifyingAliases.all (fun k => decide (getStr r k = ""))

/-- The acceptance test exactly as the claim states it: more than one
populated field, and at least one identifying field non-empty under any of
its known header aliases. -/
def claimRecordAcceptance (r : RawRecord) : Bool :=
  decide (1 < (r.filter (fun kv => decide (kv.2 ≠ ""))).length) &&
    identifyingAliases.any (fun k => decide (getStr r k ≠ ""))

/-- The acceptance test as the code implements it: more than one key
(populated or not), and at least one of exactly `Name`, `Email`, `Phone`,
`Company_name` carrying a non-whitespace value. -/
def amendedRecordAcceptance (r : RawRecord) : Bool :=
  decide (1 < (rkeys r).eraseDups.length) &&
    (["Name", "Email", "Phone", "Company_name"].any (fun k =>
      match rlookup r k with
      | some s => decide (s ≠ "") && decide (jsTrim s ≠ "")
      | none => false))

/-- A concrete contact used to exercise the export round trip. -/
def demoContact : Contact :=
  { id := "John_Doe_john@x.com"
    name := "John Doe"
    email := "john@x.com"
    phone := "(555) 012-3456"
    company := "Tech Corp"
    address := ""
    city := "New York"
    state := ""
    country := "USA"
    zip := ""
    balance := ""
    _original := [] }

/-- A concrete environment in which every remote acquisition step fails. -/
def envAllFail : OrchEnv :=
  { primaryResponses := fun _ => HttpOutcome.netError "Network request failed"
    cacheEnv := { infoTimestamp := none, payload := none, downloadStatus := 404,
                  downloadBody := "", now := 0 }
    altResponse := HttpOutcome.netError "Network request failed"
    proxyResponse := Except.error "CORS proxy failed" }

/-- The bundled sample data after normalization: what `getContacts` returns
from its final fallbacks when nothing was ever cached. -/
def sampleFallbackContacts : List Contact :=
  [{ id := "John_Doe_john.doe@email.com", name := "John Doe", email := "john.doe@email.com",
     phone := "+1-555-0123", company := "Tech Corp", address := "", city := "New York",
     state := "", country := "USA", zip := "", balance := "",
     _original := [("Name", "John Doe"), ("Company_name", "Tech Corp"),
                   ("Email", "john.doe@email.com"), ("Phone", "+1-555-0123"),
                   ("City", "New York"), ("Country", "USA")] },
   { id := "Jane_Smith_jane.smith@email.com", name := "Jane Smith", email := "jane.smith@email.com",
     phone := "+1-555-0124", company := "Design Studio", address := "", city := "Los Angeles",
     state := "", country := "USA", zip := "", balance := "",
     _original := [("Name", "Jane Smith"), ("Company_name", "Design Studio"),
                   ("Email", "jane.smith@email.com"), ("Phone", "+1-555-0124"),
                   ("City", "Los Angeles"), ("Country", "USA")] },
   { id := "Mike_Johnson_mike.johnson@email.com", name := "Mike Johnson", email := "mike.johnson@email.com",
     phone := "+1-555-0125", company := "Marketing Inc", address := "", city := "Chicago",
     state := "", country := "USA", zip := "", balance := "",
     _original := [("Name", "Mike Johnson"), ("Company_name", "Marketing Inc"),
                   ("Email", "mike.johnson@email.com"), ("Phone", "+1-555-0125"),
                   ("City", "Chicago"), ("Country", "USA")] },
   { id := "Sarah_Wilson_sarah.wilson@email.com", name := "Sarah Wilson", email := "sarah.wilson@email.com",
     phone := "+1-555-0126", company := "Sales Co", address := "", city := "Miami",
     state := "", country := "USA", zip := "", balance := "",
     _original := [("Name", "Sarah Wilson"), ("Company_name", "Sales Co"),
                   ("Email", "sarah.wilson@email.com"), ("Phone", "+1-555-0126"),
                   ("City", "Miami"), ("Country", "USA")] },
   { id := "David_Brown_david.brown@email.com", name := "David Brown", email := "david.brown@email.com",
     phone := "+1-555-0127", company := "Consulting Ltd", address := "", city := "Seattle",
     state := "", country := "USA", zip := "", balance := "",
     _original := [("Name", "David Brown"), ("Company_name", "Consulting Ltd"),
                   ("Email", "david.brown@email.com"), ("Phone", "+1-555-0127"),
                   ("City", "Seattle"), ("Country", "USA")] }]

/-! ### Basic lemmas about strings and records -/

theorem asString_append (a b : List Char) :
    (a ++ b).asString = a.asString ++ b.asString := rfl

theorem asString_toList (s : String) : s.toList.asString = s := rfl

theorem toList_asString (l : List Char) : (List.asString l).toList = l := rfl

theorem rlookup_rset_ne (r : RawRecord) (a b k : String) (h : a ≠ k) :
    rlookup (rset r a b) k = rlookup r k := by
  induction r with
  | nil => simp [rset, rlookup, h]
  | cons kv r ih =>
    obtain ⟨k', v'⟩ := kv
    by_cases hk : k' = a
    · subst hk
      simp [rset, rlookup, h]
    · simp [rset, rlookup, hk, ih]

theorem foldl_rset_lookup_none (ps : List (String × String)) (k : String) :
    ∀ r0 : RawRecord, (∀ kv ∈ ps, kv.1 ≠ k) → rlookup r0 k = none →
      rlookup (ps.foldl (fun r kv => rset r kv.1 kv.2) r0) k = none := by
  induction ps with
  | nil => intro r0 _ h0; simpa using h0
  | cons kv ps ih =>
    intro r0 hps h0
    simp only [List.foldl_cons]
    refine ih _ (fun x hx => hps x (List.mem_cons_of_mem kv hx)) ?_
    rw [rlookup_rset_ne _ _ _ _ (hps kv (List.mem_cons_self kv ps))]
    exact h0

theorem rset_fresh (r : RawRecord) (k v : String) (h : k ∉ rkeys r) :
    rset r k v = r ++ [(k, v)] := by
  induction r with
  | nil => simp [rset]
  | cons kv r ih =>
    obtain ⟨k', v'⟩ := kv
    have hk : k' ≠ k := by
      intro he; exact h (by simp [rkeys, he])
    simp only [rset, if_neg hk, List.cons_append, List.cons.injEq, true_and]
    exact ih (fun hm => h (by simp [rkeys] at hm ⊢; exact Or.inr hm))

theorem map_fst_zip_eq_take {α β : Type} :
    ∀ (hs : List α) (vs : List β), (List.zip hs vs).map Prod.fst = hs.take vs.length := by
  intro hs
  induction hs with
  | nil => intro vs; simp
  | cons h hs ih =>
    intro vs
    cases vs with
    | nil => simp
    | cons v vs => simp [List.zip_cons_cons, ih]

theorem foldl_rset_eq_append (ps : List (String × String)) :
    ∀ r0 : RawRecord, (∀ kv ∈ ps, kv.1 ∉ rkeys r0) → (ps.map Prod.fst).Nodup →
      ps.foldl (fun r kv => rset r kv.1 kv.2) r0 = r0 ++ ps := by
  induction ps with
  | nil => intro r0 _ _; simp
  | cons kv ps ih =>
    intro r0 hdisj hnd
    obtain ⟨k, v⟩ := kv
    simp only [List.foldl_cons]
    rw [rset_fresh r0 k v (hdisj (k, v) (List.mem_cons_self _ _))]
    rw [ih (r0 ++ [(k, v)]) ?_ (by simpa using hnd.of_cons)]
    · simp
    · intro x hx hmem
      simp only [rkeys, List.map_append] at hmem
      rcases List.mem_append.mp hmem with hm | hm
      · exact hdisj x (List.mem_cons_of_mem _ hx) hm
      · simp only [List.map_cons, List.map_nil, List.mem_singleton] at hm
        simp only [List.map_cons, List.nodup_cons] at hnd
        exact hnd.1 (hm ▸ List.mem_map_of_mem Prod.fst hx)

theorem manualZipRecord_eq_zip (hs vs : List String) (hnd : hs.Nodup) :
    manualZipRecord hs vs = List.zip hs vs := by
  unfold manualZipRecord
  rw [foldl_rset_eq_append]
  · simp
  · intro kv _ hm
    simp [rkeys] at hm
  · rw [map_fst_zip_eq_take]
    exact hnd.sublist (List.take_sublist _ _)

theorem rlookup_zip_lt (hs : List String) (hnd : hs.Nodup) :
    ∀ (vs : List String) (i : Nat) (hi : i < hs.length) (hv : i < vs.length),
      rlookup (List.zip hs vs) (hs.get ⟨i, hi⟩) = some (vs.get ⟨i, hv⟩) := by
  induction hs with
  | nil => intro vs i hi _; simp at hi
  | cons h hs ih =>
    intro vs i hi hv
    cases vs with
    | nil => simp at hv
    | cons v vs =>
      cases i with
      | zero => simp [rlookup]
      | succ i =>
        have hne : h ≠ hs.get ⟨i, by simpa using hi⟩ := by
          intro he
          exact (List.nodup_cons.mp hnd).1 (he ▸ List.get_mem hs _ _)
        simp only [List.zip_cons_cons, List.get_cons_succ, rlookup, if_neg hne]
        exact ih (List.nodup_cons.mp hnd).2 vs i _ (by simpa using hv)

theorem rlookup_zip_ge (hs : List String) (hnd : hs.Nodup) :
    ∀ (vs : List String) (i : Nat) (hi : i < hs.length), vs.length ≤ i →
      rlookup (List.zip hs vs) (hs.get ⟨i, hi⟩) = none := by
  induction hs with
  | nil => intro vs i hi _; simp at hi
  | cons h hs ih =>
    intro vs i hi hge
    cases vs with
    | nil => simp [rlookup]
    | cons v vs =>
      cases i with
      | zero => simp at hge
      | succ i =>
        have hne : h ≠ hs.get ⟨i, by simpa using hi⟩ := by
          intro he
          exact (List.nodup_cons.mp hnd).1 (he ▸ List.get_mem hs _ _)
        simp only [List.zip_cons_cons, List.get_cons_succ, rlookup, if_neg hne]
        exact ih (List.nodup_cons.mp hnd).2 vs i _ (by simpa using hge)

theorem rlookup_manualZipRecord_not_mem (hs : List String) (k : String) (hk : k ∉ hs)
    (vs : List String) : rlookup (manualZipRecord hs vs) k = none := by
  unfold manualZipRecord
  refine foldl_rset_lookup_none _ _ [] ?_ rfl
  intro kv hkv he
  exact hk (he ▸ (List.of_mem_zip hkv).1)

theorem manualAccept_zip_false (hs : List String)
    (hN : "Name" ∉ hs) (hE : "Email" ∉ hs) (hP : "Phone" ∉ hs) (hC : "Company_name" ∉ hs)
    (vs : List String) : manualAccept (manualZipRecord hs vs) = false := by
  unfold manualAccept getStr
  rw [rlookup_manualZipRecord_not_mem hs _ hN, rlookup_manualZipRecord_not_mem hs _ hE,
      rlookup_manualZipRecord_not_mem hs _ hP, rlookup_manualZipRecord_not_mem hs _ hC]
  simp

theorem manualLines_eq_nil (hs : List String)
    (hN : "Name" ∉ hs) (hE : "Email" ∉ hs) (hP : "Phone" ∉ hs) (hC : "Company_name" ∉ hs) :
    ∀ ls : List String, manualLines hs ls = [] := by
  intro ls
  induction ls with
  | nil => rfl
  | cons line rest ih =>
    unfold manualLines
    by_cases hB : jsTrim line = ""
    · simpa [hB] using ih
    · rw [if_neg hB]
      simp only [manualRowRecord, manualAccept_zip_false hs hN hE hP hC]
      simpa using ih

theorem rlookup_papaZipRecord_not_mem (hs : List String) (row : List (List Char)) (k : String)
    (hk : k ∉ hs) (hx : k ≠ "__parsed_extra") :
    rlookup (papaZipRecord hs row) k = none := by
  unfold papaZipRecord
  have hbase : rlookup ((List.zip hs (row.map List.asString)).foldl
      (fun r kv => rset r kv.1 kv.2) []) k = none := by
    refine foldl_rset_lookup_none _ _ [] ?_ rfl
    intro kv hkv he
    exact hk (he ▸ (List.of_mem_zip hkv).1)
  by_cases hlen : hs.length < (row.map List.asString).length
  · simp only [if_pos hlen]
    rw [rlookup_rset_ne _ _ _ _ (fun he => hx he.symm)]
    exact hbase
  · simp only [if_neg hlen]
    exact hbase

theorem papaRecordValid_zip_false (hs : List String)
    (hN : "Name" ∉ hs) (hE : "Email" ∉ hs) (hP : "Phone" ∉ hs) (hC : "Company_name" ∉ hs)
    (row : List (List Char)) : papaRecordValid (papaZipRecord hs row) = false := by
  simp only [papaRecordValid]
  rw [rlookup_papaZipRecord_not_mem hs row _ hN (by decide),
      rlookup_papaZipRecord_not_mem hs row _ hE (by decide),
      rlookup_papaZipRecord_not_mem hs row _ hP (by decide),
      rlookup_papaZipRecord_not_mem hs row _ hC (by decide)]
  simp

theorem splitOnChar_ne_nil (sep : Char) (l : List Char) : splitOnChar sep l ≠ [] := by
  cases l with
  | nil => simp [splitOnChar]
  | cons c r =>
    unfold splitOnChar
    by_cases h : c = sep
    · simp [h]
    · rw [if_neg h]
      cases splitOnChar sep r with
      | nil => simp [consTok]
      | cons f fs => simp [consTok]

theorem splitOnChar_append (sep : Char) (a : List Char) (ha : sep ∉ a) (b : List Char) :
    splitOnChar sep (a ++ sep :: b) = a :: splitOnChar sep b := by
  induction a with
  | nil => simp [splitOnChar]
  | cons c a ih =>
    have hc : c ≠ sep := fun he => ha (he ▸ List.mem_cons_self c a)
    have ha' : sep ∉ a := fun hm => ha (List.mem_cons_of_mem c hm)
    simp only [List.cons_append, splitOnChar, if_neg (fun he => hc he), List.append_eq]
    rw [ih ha']
    simp [consTok]

theorem papaScanCh_cons_other (c : Char) (l : List Char)
    (h1 : c ≠ '\"') (h2 : c ≠ ',') (h3 : c ≠ '\n') :
    papaScanCh (c :: l) false =
      (consField c (papaScanCh l false).1, (papaScanCh l false).2) := by
  conv_lhs => rw [papaScanCh.eq_def]
  simp [h1, h2, h3]

theorem papaScanCh_cons_comma (l : List Char) :
    papaScanCh (',' :: l) false =
      (consNewField (papaScanCh l false).1, (papaScanCh l false).2) := by
  conv_lhs => rw [papaScanCh.eq_def]
  simp

theorem papaScanCh_cons_newline (l : List Char) :
    papaScanCh ('\n' :: l) false =
      ([[]] :: (papaScanCh l false).1, (papaScanCh l false).2) := by
  conv_lhs => rw [papaScanCh.eq_def]
  simp

theorem papaScanCh_append (a : List Char) (ha : ∀ c ∈ a, c ≠ '\"' ∧ c ≠ '\n') (b : List Char) :
    papaScanCh (a ++ '\n' :: b) false =
      (splitOnChar ',' a :: (papaScanCh b false).1, (papaScanCh b false).2) := by
  induction a with
  | nil => simp [papaScanCh_cons_newline, splitOnChar]
  | cons c a ih =>
    obtain ⟨hq, hn⟩ := ha c (List.mem_cons_self c a)
    have ha' : ∀ x ∈ a, x ≠ '\"' ∧ x ≠ '\n' := fun x hx => ha x (List.mem_cons_of_mem c hx)
    by_cases hc : c = ','
    · subst hc
      rw [List.cons_append, papaScanCh_cons_comma, ih ha']
      simp [splitOnChar, consNewField]
    · rw [List.cons_append, papaScanCh_cons_other c _ hq hc hn, ih ha']
      simp only [splitOnChar, if_neg (fun he => hc he), consField, consTok]

/-! ### Claim C3: phone normalization -/

/-- C3: for every phone string whose non-digit characters, once stripped,
leave exactly 10 digits, `formatPhone` returns the string
`(XXX) XXX-XXXX` built from those ten digits; for every phone string with
any other digit count, it returns the original input unchanged. -/
theorem c3_formatPhone_spec (s : String) :
    ((s.toList.filter Char.isDigit).length = 10 →
      formatPhone s =
        "(" ++ ((s.toList.filter Char.isDigit).take 3).asString ++ ") " ++
          (((s.toList.filter Char.isDigit).drop 3).take 3).asString ++ "-" ++
          ((s.toList.filter Char.isDigit).drop 6).asString) ∧
    ((s.toList.filter Char.isDigit).length ≠ 10 → formatPhone s = s) := by
  constructor
  · intro h10
    have hs : s ≠ "" := by
      intro he
      subst he
      simp at h10
    unfold formatPhone
    rw [if_neg hs, if_pos h10]
    simp only [asString_append]
    simp [asString_toList, String.append_assoc,
      show ['('].asString = "(" from rfl, show [')', ' '].asString = ") " from rfl,
      show ['-'].asString = "-" from rfl]
  · intro hne
    unfold formatPhone
    by_cases hs : s = ""
    · subst hs; rfl
    · rw [if_neg hs, if_neg hne]

/-- Witness for C3 at two concrete phones: ten digits are reformatted, any
other digit count is preserved. -/
theorem c3_formatPhone_spec_witness :
    formatPhone "555-123-4567" = "(555) 123-4567" ∧ formatPhone "12345" = "12345" := by
  constructor
  · have h := (c3_formatPhone_spec "555-123-4567").1 (by decide)
    rw [h]; rfl
  · exact (c3_formatPhone_spec "12345").2 (by decide)

/-! ### Claim C7: the structured parser's acceptance test -/

/-- C7 (counterexample): the record `{name: "John", email: "john@x.com"}`
has two populated fields and identifying fields under the aliases `name` and
`email`, so the claim's acceptance condition holds; the code's acceptance
test rejects it, because it consults only the spellings `Name`, `Email`,
`Phone`, `Company_name`. -/
theorem c7_counterexample :
    papaRecordValid [("name", "John"), ("email", "john@x.com")] = false ∧
    claimRecordAcceptance [("name", "John"), ("email", "john@x.com")] = true := by
  constructor <;> rfl

/-- C7 (amended): the acceptance test holds iff the record has more than one
key (populated or not) and at least one of exactly `Name`, `Email`, `Phone`,
`Company_name` carries a non-empty, non-whitespace value — fixed spellings,
not the alias table. -/
theorem c7_amended (r : RawRecord) : papaRecordValid r = amendedRecordAcceptance r := by
  simp only [papaRecordValid, amendedRecordAcceptance, List.any_cons, List.any_nil,
    Bool.or_false, Bool.or_assoc]

/-! ### Claim C8: the manual parser's positional zip -/

/-- C8 (counterexample): on `"Name,Email,Phone\nJohn"` the manual parser
produces the record `{Name: "John"}`; the headers `Email` and `Phone`,
which have no corresponding value on the data line, are absent from the
record rather than mapped to the empty string. -/
theorem c8_counterexample :
    manualCSVParse "Name,Email,Phone\nJohn" = Except.ok [[("Name", "John")]] ∧
    rlookup [("Name", "John")] "Email" = none := ⟨rfl, rfl⟩

/-- C8 (amended): the manual parser's zip binds exactly the first
`min(headers, values)` headers — values beyond the header count are dropped,
and a header position with no corresponding value is absent from the record
(not bound to the empty string). -/
theorem c8_amended (hs vs : List String) (hnd : hs.Nodup) :
    rkeys (manualZipRecord hs vs) = hs.take vs.length ∧
    (∀ (i : Nat) (hi : i < hs.length) (hv : i < vs.length),
      rlookup (manualZipRecord hs vs) (hs.get ⟨i, hi⟩) = some (vs.get ⟨i, hv⟩)) ∧
    (∀ (i : Nat) (hi : i < hs.length), vs.length ≤ i →
      rlookup (manualZipRecord hs vs) (hs.get ⟨i, hi⟩) = none) := by
  rw [manualZipRecord_eq_zip hs vs hnd]
  refine ⟨?_, ?_, ?_⟩
  · rw [rkeys, map_fst_zip_eq_take]
  · exact fun i hi hv => rlookup_zip_lt hs hnd vs i hi hv
  · exact fun i hi hge => rlookup_zip_ge hs hnd vs i hi hge

/-- Witness for C8 at a concrete header row with three headers and one
value. -/
theorem c8_amended_witness :
    rkeys (manualZipRecord ["A", "B", "C"] ["1"]) = ["A", "B", "C"].take 1 ∧
    rlookup (manualZipRecord ["A", "B", "C"] ["1"]) (["A", "B", "C"].get ⟨2, by decide⟩) = none := by
  exact ⟨(c8_amended ["A", "B", "C"] ["1"] (by decide)).1,
    (c8_amended ["A", "B", "C"] ["1"] (by decide)).2.2 2 (by decide) (by decide)⟩

/-! ### Claim C6: when the structured parser fails -/

theorem manualCSVParse_error_iff (t : String) :
    (∃ e, manualCSVParse t = Except.error e) ↔ (strSplit t '\n').length < 2 := by
  rcases hsplit : strSplit t '\n' with _ | ⟨l0, _ | ⟨l1, rest⟩⟩
  · simp [manualCSVParse, hsplit]
  · simp [manualCSVParse, hsplit]
  · constructor
    · rintro ⟨e, he⟩
      simp [manualCSVParse, hsplit] at he
    · intro h
      simp only [List.length_cons] at h
      omega

/-- C6 (counterexample): on `"a,b\n1,2"` both structured profiles produce a
record but zero valid ones, so they fail; the manual fallback accepts no
line either, yet it succeeds with the empty record list, so
`parseCSVWithFallbacks` returns successfully with zero valid records —
contradicting the claim that a strategy with zero valid records always
passes control on and that the parser never succeeds with zero records. -/
theorem c6_counterexample : parseCSVWithFallbacks "a,b\n1,2" = Except.ok [] := rfl

/-- C6 (amended): `parseCSVWithFallbacks` raises its `ParseError` iff the
strict profile fails (error or zero valid records), the relaxed profile
fails likewise, and the manual fallback fails — which happens exactly when
the input has fewer than two newline-separated lines.  The manual fallback
is not subject to the zero-valid-records acceptance check, so the parser can
return successfully with zero records. -/
theorem c6_amended (csvText : String) :
    (∃ e, parseCSVWithFallbacks csvText = Except.error e) ↔
      ((∃ e, papaStrategy true csvText = Except.error e) ∧
       (∃ e, papaStrategy false csvText = Except.error e) ∧
       (strSplit csvText '\n').length < 2) := by
  unfold parseCSVWithFallbacks
  rcases h1 : papaStrategy true csvText with e1 | rs1
  · rcases h2 : papaStrategy false csvText with e2 | rs2
    · rcases h3 : manualCSVParse csvText with e3 | rs3
      · simp only
        constructor
        · intro _
          exact ⟨⟨e1, rfl⟩, ⟨e2, rfl⟩, (manualCSVParse_error_iff csvText).mp ⟨e3, h3⟩⟩
        · intro _
          exact ⟨_, rfl⟩
      · simp only
        constructor
        · rintro ⟨e, he⟩
          cases he
        · rintro ⟨_, _, hlt⟩
          obtain ⟨e, he⟩ := (manualCSVParse_error_iff csvText).mpr hlt
          rw [h3] at he
          cases he
    · simp only
      constructor
      · rintro ⟨e, he⟩
        cases he
      · rintro ⟨_, ⟨e2, he2⟩, _⟩
        cases he2
  · simp only
    constructor
    · rintro ⟨e, he⟩
      cases he
    · rintro ⟨⟨e1, he1⟩, _, _⟩
      cases he1

/-! ### Claim C9: retry exhaustion and backoff -/

/-- An environment answering HTTP 500 to every attempt. -/
def allFail500 : Nat → HttpOutcome := fun _ => HttpOutcome.success 500 "Internal Server Error"

/-- C9 (amended): when every attempt receives HTTP 500, `fetchCSVFromURL`
raises its terminal error after exactly 3 attempts, sleeping the strictly
increasing delays `1 * 1000` and `2 * 1000` between consecutive attempts —
a total backoff of `(1 + 2) * 1000`, not `(1 + 2 + 3) * 1000`. -/
theorem c9_amended (responses : Nat → HttpOutcome)
    (h : ∀ n, ∃ body, responses n = HttpOutcome.success 500 body) :
    ∃ e, fetchCSVFromURL responses 1 = (Except.error e, [1 * 1000, 2 * 1000], 3) := by
  obtain ⟨b1, h1⟩ := h 1
  obtain ⟨b2, h2⟩ := h 2
  obtain ⟨b3, h3⟩ := h 3
  have ha : ∀ b, fetchAttempt (HttpOutcome.success 500 b) = Except.error "HTTP 500" := by
    intro b
    simp only [fetchAttempt, if_pos (show ¬(200 ≤ 500 ∧ 500 < 300) from by decide)]
    rfl
  refine ⟨"Failed to fetch CSV after 3 attempts: HTTP 500", ?_⟩
  unfold fetchCSVFromURL
  rw [show maxAttempts - 1 = 2 from rfl]
  rw [fetchGo, h1, ha b1]
  norm_num [maxAttempts]
  rw [fetchGo, h2, ha b2]
  norm_num [maxAttempts]
  rw [fetchGo, h3, ha b3]
  norm_num [maxAttempts]
  rfl

/-- Witness for C9 at the concrete all-500 environment. -/
theorem c9_amended_witness :
    ∃ e, fetchCSVFromURL allFail500 1 = (Except.error e, [1 * 1000, 2 * 1000], 3) :=
  c9_amended allFail500 (fun _ => ⟨"Internal Server Error", rfl⟩)

/-- C9 (counterexample): with HTTP 500 on every attempt the delays are
`[1000, 2000]` over 3 attempts, so the total elapsed backoff is `3000`,
which is NOT at least the `(1 + 2 + 3) * 1000 = 6000` the claim requires. -/
theorem c9_counterexample :
    (fetchCSVFromURL allFail500 1).2.1 = [1000, 2000] ∧
    (fetchCSVFromURL allFail500 1).2.2 = 3 ∧
    ¬ ((1 + 2 + 3) * 1000 ≤ ((fetchCSVFromURL allFail500 1).2.1).sum) :=
  ⟨rfl, rfl, by decide⟩

/-! ### Claim C5: the export round trip -/

theorem papaStrategy_error_of_invalid (strict : Bool) (t : String)
    (h : ∀ rs, papaParse strict t = Except.ok rs → ∀ rec ∈ rs, papaRecordValid rec = false) :
    ∃ e, papaStrategy strict t = Except.error e := by
  unfold papaStrategy
  rcases hp : papaParse strict t with e | rs
  · exact ⟨e, rfl⟩
  · have hnil : rs.filter papaRecordValid = [] :=
      List.filter_eq_nil.mpr (fun a ha => by simp [h rs hp a ha])
    refine ⟨"No valid contacts found after parsing", ?_⟩
    simp [hnil]

theorem exportCSV_toList (c0 : Contact) (rest : List Contact) :
    (exportCSV (c0 :: rest)).toList =
      (exportHeaderChars ++ ['\r']) ++ '\n' ::
        joinCRLF (exportRowChars c0 :: rest.map exportRowChars) := by
  unfold exportCSV
  rw [toList_asString, List.map_cons]
  rw [show joinCRLF (exportHeaderChars :: exportRowChars c0 :: rest.map exportRowChars) =
      exportHeaderChars ++ '\r' :: '\n' ::
        joinCRLF (exportRowChars c0 :: rest.map exportRowChars) from rfl]
  simp

theorem export_header_clean : ∀ c ∈ exportHeaderChars ++ ['\r'], c ≠ '\"' ∧ c ≠ '\n' := by
  decide

theorem export_header_fields :
    (splitOnChar ',' (exportHeaderChars ++ ['\r'])).map (fun f => transformHeader f.asString) =
      exportColumns := by
  rfl

theorem export_header_not_empty_row (strict : Bool) :
    rowIsEmpty strict (splitOnChar ',' (exportHeaderChars ++ ['\r'])) = false := by
  cases strict <;> rfl

theorem export_columns_no_identifying :
    "Name" ∉ exportColumns ∧ "Email" ∉ exportColumns ∧ "Phone" ∉ exportColumns ∧
      "Company_name" ∉ exportColumns := by
  decide

theorem papaParse_export_invalid (strict : Bool) (c0 : Contact) (rest : List Contact) :
    ∀ rs, papaParse strict (exportCSV (c0 :: rest)) = Except.ok rs →
      ∀ rec ∈ rs, papaRecordValid rec = false := by
  intro rs hok rec hrec
  obtain ⟨hN, hE, hP, hC⟩ := export_columns_no_identifying
  unfold papaParse at hok
  rw [exportCSV_toList c0 rest, papaScanCh_append _ export_header_clean _] at hok
  generalize hpB : papaScanCh (joinCRLF (exportRowChars c0 :: rest.map exportRowChars)) false = pB at hok
  obtain ⟨rowsB, eB⟩ := pB
  simp only at hok
  by_cases hse : strict = true ∧ eB = true
  · rw [if_pos hse] at hok
    cases hok
  · rw [if_neg hse] at hok
    cases heB : eB with
    | false =>
      subst heB
      simp only [if_neg (by simp : ¬ (false = true))] at hok
      rw [List.filter_cons_of_pos (by simp [export_header_not_empty_row])] at hok
      have hok2 : Except.ok ((rowsB.filter (fun row => !rowIsEmpty strict row)).map
          (papaZipRecord ((splitOnChar ',' (exportHeaderChars ++ ['\x0d'])).map
            (fun f => transformHeader f.asString)))) = Except.ok rs := hok
      injection hok2 with hrs
      subst hrs
      rw [export_header_fields] at hrec
      obtain ⟨row, _, hrow⟩ := List.mem_map.mp hrec
      exact hrow ▸ papaRecordValid_zip_false exportColumns hN hE hP hC row
    | true =>
      subst heB
      rw [if_pos (show true = true from rfl)] at hok
      cases rowsB with
      | nil =>
        have hok2 : (Except.ok ([] : List RawRecord)) = Except.ok rs := hok
        injection hok2 with hrs
        subst hrs
        cases hrec
      | cons rb rbs =>
        rw [show (splitOnChar ',' (exportHeaderChars ++ ['\x0d']) :: rb :: rbs).dropLast =
            splitOnChar ',' (exportHeaderChars ++ ['\x0d']) :: (rb :: rbs).dropLast from rfl] at hok
        rw [List.filter_cons_of_pos (by simp [export_header_not_empty_row])] at hok
        have hok2 : Except.ok (((rb :: rbs).dropLast.filter (fun row => !rowIsEmpty strict row)).map
            (papaZipRecord ((splitOnChar ',' (exportHeaderChars ++ ['\x0d'])).map
              (fun f => transformHeader f.asString)))) = Except.ok rs := hok
        injection hok2 with hrs
        subst hrs
        rw [export_header_fields] at hrec
        obtain ⟨row, _, hrow⟩ := List.mem_map.mp hrec
        exact hrow ▸ papaRecordValid_zip_false exportColumns hN hE hP hC row

theorem manualCSVParse_export_ok (c0 : Contact) (rest : List Contact) :
    manualCSVParse (exportCSV (c0 :: rest)) = Except.ok [] := by
  have hsplit : strSplit (exportCSV (c0 :: rest)) '\n' =
      (exportHeaderChars ++ ['\x0d']).asString ::
        (splitOnChar '\n' (joinCRLF (exportRowChars c0 :: rest.map exportRowChars))).map
          List.asString := by
    unfold strSplit
    rw [exportCSV_toList]
    rw [splitOnChar_append '\n' _ (by decide) _]
    simp
  obtain ⟨x, xs, hx⟩ :=
    List.exists_cons_of_ne_nil
      (splitOnChar_ne_nil '\n' (joinCRLF (exportRowChars c0 :: rest.map exportRowChars)))
  unfold manualCSVParse
  rw [hsplit, hx]
  simp only [List.map_cons]
  rw [show (strSplit (jsTrim (List.asString (exportHeaderChars ++ ['\x0d']))) ',').map
      manualHeaderName = exportColumns from rfl]
  rw [manualLines_eq_nil exportColumns (by decide) (by decide) (by decide) (by decide)]

/-- C5 (amended): re-ingesting an exported contact list through the
structured parser yields the empty record list for every non-empty input
(and a `ParseError` for the empty one): every strategy's acceptance checks
the capitalized spellings `Name`/`Email`/`Phone`/`Company_name`, which the
export's lowercase columns never produce, so no record and no line is ever
accepted; the normalizer therefore receives nothing, instead of
reconstructing the original contacts. -/
theorem c5_amended (l : List Contact) (h : l ≠ []) :
    parseCSVWithFallbacks (exportCSV l) = Except.ok [] ∧
    (match parseCSVWithFallbacks (exportCSV l) with
     | Except.ok rs => rs.map formatContact
     | Except.error _ => []) = [] := by
  obtain ⟨c0, rest, rfl⟩ := List.exists_cons_of_ne_nil h
  obtain ⟨e1, he1⟩ :=
    papaStrategy_error_of_invalid true _ (papaParse_export_invalid true c0 rest)
  obtain ⟨e2, he2⟩ :=
    papaStrategy_error_of_invalid false _ (papaParse_export_invalid false c0 rest)
  have hmain : parseCSVWithFallbacks (exportCSV (c0 :: rest)) = Except.ok [] := by
    unfold parseCSVWithFallbacks
    rw [he1, he2, manualCSVParse_export_ok c0 rest]
  refine ⟨hmain, ?_⟩
  rw [hmain]
  rfl

/-- Witness for C5 (amended) at the concrete one-contact list. -/
theorem c5_amended_witness :
    parseCSVWithFallbacks (exportCSV [demoContact]) = Except.ok [] ∧
    (match parseCSVWithFallbacks (exportCSV [demoContact]) with
     | Except.ok rs => rs.map formatContact
     | Except.error _ => []) = [] :=
  c5_amended [demoContact] (by simp)

/-- C5 (counterexample): exporting the one-contact list `[demoContact]` and
re-ingesting the CSV yields zero records — not contacts equal to the
original on the canonical fields, since the original list has one contact. -/
theorem c5_counterexample :
    parseCSVWithFallbacks (exportCSV [demoContact]) = Except.ok [] ∧
    [demoContact].length = 1 := ⟨rfl, rfl⟩

/-! ### Orchestrator lemmas -/

theorem ladderE_ok (env : OrchEnv) : ∃ cs, ladderE env = Except.ok cs := by
  unfold ladderE
  cases (fetchCSVFromURL env.primaryResponses 1).1 with
  | ok cs => exact ⟨cs, rfl⟩
  | error e0 =>
    cases cacheApproach env with
    | ok cs => exact ⟨cs, rfl⟩
    | error e1 =>
      cases altApproach env with
      | ok cs => exact ⟨cs, rfl⟩
      | error e2 =>
        cases proxyApproach env with
        | ok cs => exact ⟨cs, rfl⟩
        | error e3 => exact ⟨loadLocalCSV, rfl⟩

theorem getContactsTry_ok (env : OrchEnv) (now : Nat) :
    ∃ l, getContactsTry env now =
        Except.ok (l, { cachedContacts := some l, lastFetchTime := now }) ∧
      ∀ c ∈ l, isMeaningful c = true := by
  obtain ⟨cs, hcs⟩ := ladderE_ok env
  refine ⟨(cs.map formatContact).filter isMeaningful, ?_, ?_⟩
  · unfold getContactsTry
    rw [show (if configUseLocalCSV then Except.ok loadLocalCSV else ladderE env) =
        ladderE env from rfl, hcs]
  · intro c hc
    exact List.of_mem_filter hc

theorem getContacts_hit (env : OrchEnv) (st : OrchState) (now : Nat) (cs : List Contact)
    (hc : st.cachedContacts = some cs) (ht : now - st.lastFetchTime < cacheDuration) :
    getContacts false env st now = (cs, st) := by
  unfold getContacts
  rw [if_pos ⟨rfl, by rw [hc]; rfl, ht⟩, hc]
  rfl

theorem getContacts_miss (force : Bool) (env : OrchEnv) (st : OrchState) (now : Nat)
    (h : ¬(force = false ∧ st.cachedContacts.isSome = true ∧
      now - st.lastFetchTime < cacheDuration)) :
    ∃ l, getContacts force env st now =
        (l, { cachedContacts := some l, lastFetchTime := now }) ∧
      ∀ c ∈ l, isMeaningful c = true := by
  obtain ⟨l, hl, hmean⟩ := getContactsTry_ok env now
  refine ⟨l, ?_, hmean⟩
  unfold getContacts
  rw [if_neg h, hl]

theorem formatContact_noIdentifying_not_meaningful (r : RawRecord)
    (h : noIdentifyingFields r = true) : isMeaningful (formatContact r) = false := by
  have hget : ∀ k ∈ identifyingAliases, getStr r k = "" := by
    intro k hk
    simpa using List.all_eq_true.mp h k hk
  have h01 : getStr r "Name" = "" := hget _ (by decide)
  have h02 : getStr r "name" = "" := hget _ (by decide)
  have h03 : getStr r "Email" = "" := hget _ (by decide)
  have h04 : getStr r "email" = "" := hget _ (by decide)
  have h05 : getStr r "Email_Address" = "" := hget _ (by decide)
  have h06 : getStr r "Phone" = "" := hget _ (by decide)
  have h07 : getStr r "phone" = "" := hget _ (by decide)
  have h08 : getStr r "mobile" = "" := hget _ (by decide)
  have h09 : getStr r "telephone" = "" := hget _ (by decide)
  have h10 : getStr r "Company_name" = "" := hget _ (by decide)
  have h11 : getStr r "Company name" = "" := hget _ (by decide)
  have h12 : getStr r "company" = "" := hget _ (by decide)
  have h13 : getStr r "organisation" = "" := hget _ (by decide)
  have h14 : getStr r "Company" = "" := hget _ (by decide)
  unfold formatContact isMeaningful
  simp [firstTruthy, h01, h02, h03, h04, h05, h06, h07, h08, h09, h10, h11, h12, h13, h14,
    formatPhone]

/-! ### Claim C1: getContacts never fails -/

/-- C1: the acquisition `try` block of `getContacts` always succeeds with a
contact list (the ladder's final stage, the bundled sample data, cannot
fail), for every forceRefresh flag and every outcome of the network, parser
and cache operations; and the `catch` handler returns the previous memory
snapshot when one exists, else the sample data normalized by
`formatContact`. -/
theorem c1_getContacts_never_fails (env : OrchEnv) (now : Nat) :
    (∃ out, getContactsTry env now = Except.ok out) ∧
    (∀ (cs : List Contact) (t : Nat),
      onUnexpected { cachedContacts := some cs, lastFetchTime := t } =
        (cs, { cachedContacts := some cs, lastFetchTime := t })) ∧
    (∀ t : Nat,
      onUnexpected { cachedContacts := none, lastFetchTime := t } =
        (sampleFallbackContacts, { cachedContacts := none, lastFetchTime := t })) := by
  refine ⟨?_, fun cs t => rfl, fun t => rfl⟩
  obtain ⟨l, hl, _⟩ := getContactsTry_ok env now
  exact ⟨_, hl⟩

/-! ### Claim C2: only meaningful contacts are returned -/

/-- C2: whenever the memory snapshot (if any) contains only meaningful
contacts — which is an invariant of the system, since only `getContacts`
writes it — every contact returned by `getContacts`, on every path,
satisfies the validity invariant, and the normalization of a raw record
with zero identifying fields populated never appears in the returned
list. -/
theorem c2_all_returned_contacts_valid (force : Bool) (env : OrchEnv) (st : OrchState)
    (now : Nat)
    (hst : ∀ cs, st.cachedContacts = some cs → ∀ c ∈ cs, isMeaningful c = true) :
    (∀ c ∈ (getContacts force env st now).1, isMeaningful c = true) ∧
    (∀ r : RawRecord, noIdentifyingFields r = true →
      formatContact r ∉ (getContacts force env st now).1) ∧
    (∀ cs2, (getContacts force env st now).2.cachedContacts = some cs2 →
      ∀ c ∈ cs2, isMeaningful c = true) := by
  have hkey : (∀ c ∈ (getContacts force env st now).1, isMeaningful c = true) ∧
      (∀ cs2, (getContacts force env st now).2.cachedContacts = some cs2 →
        ∀ c ∈ cs2, isMeaningful c = true) := by
    by_cases hhit : force = false ∧ st.cachedContacts.isSome = true ∧
        now - st.lastFetchTime < cacheDuration
    · obtain ⟨cs, hcs⟩ := Option.isSome_iff_exists.mp hhit.2.1
      rw [hhit.1, getContacts_hit env st now cs hcs hhit.2.2]
      exact ⟨hst cs hcs, hst⟩
    · obtain ⟨l, hl, hmean⟩ := getContacts_miss force env st now hhit
      rw [hl]
      refine ⟨hmean, ?_⟩
      intro cs2 hcs2 c hc
      cases hcs2
      exact hmean c hc
  refine ⟨hkey.1, ?_, hkey.2⟩
  intro r hr hmem
  have hv := hkey.1 _ hmem
  rw [formatContact_noIdentifying_not_meaningful r hr] at hv
  cases hv

/-- Witness for C2 at the initial state (no snapshot) in an environment
where every remote step fails. -/
theorem c2_all_returned_contacts_valid_witness :
    (∀ c ∈ (getContacts false envAllFail
        { cachedContacts := none, lastFetchTime := 0 } 0).1, isMeaningful c = true) ∧
    (∀ r : RawRecord, noIdentifyingFields r = true →
      formatContact r ∉ (getContacts false envAllFail
        { cachedContacts := none, lastFetchTime := 0 } 0).1) ∧
    (∀ cs2, (getContacts false envAllFail
        { cachedContacts := none, lastFetchTime := 0 } 0).2.cachedContacts = some cs2 →
      ∀ c ∈ cs2, isMeaningful c = true) :=
  c2_all_returned_contacts_valid false envAllFail
    { cachedContacts := none, lastFetchTime := 0 } 0 (fun cs h => nomatch h)

/-! ### Claim C4: idempotence inside the compute-avoidance window -/

/-- C4: with a memory snapshot younger than the 5-minute window, two
consecutive `getContacts(false)` calls both return exactly the cached list
and leave the state untouched — for arbitrary (even failing or different)
environments, hence with no re-fetch and no re-parse. -/
theorem c4_idempotent_within_window (st : OrchState) (cs : List Contact)
    (env1 env2 : OrchEnv) (t1 t2 : Nat)
    (hc : st.cachedContacts = some cs)
    (h1 : t1 - st.lastFetchTime < cacheDuration) (h2 : t2 - st.lastFetchTime < cacheDuration) :
    getContacts false env1 st t1 = (cs, st) ∧
    getContacts false env2 (getContacts false env1 st t1).2 t2 = (cs, st) := by
  have g1 := getContacts_hit env1 st t1 cs hc h1
  refine ⟨g1, ?_⟩
  rw [g1]
  exact getContacts_hit env2 st t2 cs hc h2

/-- Witness for C4 at a concrete fresh snapshot. -/
theorem c4_idempotent_within_window_witness :
    getContacts false envAllFail
        { cachedContacts := some sampleFallbackContacts, lastFetchTime := 0 } 0 =
      (sampleFallbackContacts,
        { cachedContacts := some sampleFallbackContacts, lastFetchTime := 0 }) ∧
    getContacts false envAllFail
        (getContacts false envAllFail
          { cachedContacts := some sampleFallbackContacts, lastFetchTime := 0 } 0).2 0 =
      (sampleFallbackContacts,
        { cachedContacts := some sampleFallbackContacts, lastFetchTime := 0 }) :=
  c4_idempotent_within_window _ sampleFallbackContacts envAllFail envAllFail 0 0 rfl
    (by decide) (by decide)

/-! ### Claim C10: every success writes the snapshot -/

/-- C10: whenever `getContacts` takes its `try` block (cache miss, absent
snapshot, or forced refresh), it succeeds through some ladder stage — the
bundled sample data included — and writes the returned list and the current
time to the memory snapshot; every subsequent `getContacts(false)` within
the next 5 minutes then returns that same list for any environment, hence
without attempting any network access. -/
theorem c10_snapshot_written_on_success (force : Bool) (env : OrchEnv) (st : OrchState)
    (now : Nat)
    (hmiss : force = true ∨ st.cachedContacts = none ∨
      cacheDuration ≤ now - st.lastFetchTime) :
    ∃ l, getContacts force env st now =
        (l, { cachedContacts := some l, lastFetchTime := now }) ∧
      ∀ (env2 : OrchEnv) (t2 : Nat), t2 - now < cacheDuration →
        getContacts false env2 { cachedContacts := some l, lastFetchTime := now } t2 =
          (l, { cachedContacts := some l, lastFetchTime := now }) := by
  have hcond : ¬(force = false ∧ st.cachedContacts.isSome = true ∧
      now - st.lastFetchTime < cacheDuration) := by
    rintro ⟨hf, hsome, hlt⟩
    rcases hmiss with h | h | h
    · rw [hf] at h; cases h
    · rw [h] at hsome; cases hsome
    · omega
  obtain ⟨l, hl, _⟩ := getContacts_miss force env st now hcond
  refine ⟨l, hl, ?_⟩
  intro env2 t2 ht2
  exact getContacts_hit env2 _ t2 l rfl ht2

/-- Witness for C10 at a forced refresh in the all-failure environment (the
sample-data stage). -/
theorem c10_snapshot_written_on_success_witness :
    ∃ l, getContacts true envAllFail { cachedContacts := none, lastFetchTime := 0 } 0 =
        (l, { cachedContacts := some l, lastFetchTime := 0 }) ∧
      ∀ (env2 : OrchEnv) (t2 : Nat), t2 - 0 < cacheDuration →
        getContacts false env2 { cachedContacts := some l, lastFetchTime := 0 } t2 =
          (l, { cachedContacts := some l, lastFetchTime := 0 }) :=
  c10_snapshot_written_on_success true envAllFail
    { cachedContacts := none, lastFetchTime := 0 } 0 (Or.inl rfl)
